import Mathlib

/-!
Verification of the model-descriptor normalizer in
`src/modules/llms/openai/OpenAISourceSetup.tsx` (big-AGI).

The only logic in that file is the static `knownBases` table and the
function `openAIModelToDLLM`, which maps a raw OpenAI model descriptor
`{id, created}` and a source reference to a normalized `DLLM` record.
We embed the JavaScript string operations it uses (`startsWith`, `slice`,
`trim`, `replaceAll('-', ' ')`, `Math.round`) over `String` viewed as its
list of characters, and the function itself line by line.
-/

/-- Whitespace for the purposes of JS `String.prototype.trim`.
JS trims the full Unicode WhiteSpace + LineTerminator set; we model the
characters that can actually occur here (the usual ASCII ones plus NBSP,
BOM and the line/paragraph separators). -/
def jsWhitespace (c : Char) : Bool :=
  c = ' ' || c = '\t' || c = '\n' || c = '\r' || c = '\x0b' || c = '\x0c' ||
  c = ' ' || c = ' ' || c = ' ' || c = '﻿'

/-- JS `s.startsWith(p)`: literal substring-at-start matching. -/
def jsStartsWith (s p : String) : Bool :=
  List.isPrefixOf p.data s.data

/-- JS `s.slice(n)` (single argument, non-negative `n`): drop the first
`n` characters. -/
def jsSlice (s : String) (n : Nat) : String :=
  String.mk (s.data.drop n)

/-- JS `s.length`. -/
def jsLength (s : String) : Nat :=
  s.data.length

/-- JS `s.trim()`: remove leading and trailing whitespace. -/
def jsTrim (s : String) : String :=
  String.mk (((s.data.dropWhile jsWhitespace).reverse.dropWhile jsWhitespace).reverse)

/-- JS `s.replaceAll('-', ' ')`: both arguments are single characters, so
this is a character map. -/
def jsReplaceHyphens (s : String) : String :=
  String.mk (s.data.map (fun c => if c = '-' then ' ' else c))

/-- JS `Math.round x = ⌊x + 1/2⌋` (halves round toward +∞). -/
def jsRound (x : ℚ) : ℤ :=
  Int.floor (x + 1/2)

/-- One entry of the `knownBases` table: `{ id, label, context, description }`. -/
structure KnownBase where
  id : String
  label : String
  context : ℕ
  description : String
deriving DecidableEq, Repr

/-- The static `knownBases` array (lines 135-160 of the source). -/
def knownBases : List KnownBase := [
  ⟨"gpt-4-32k", "GPT-4-32", 32768, "Largest context window for big thinking"⟩,
  ⟨"gpt-4", "GPT-4", 8192, "Insightful, big thinker, slower, pricey"⟩,
  ⟨"gpt-3.5-turbo", "3.5-Turbo", 4097, "Fair speed and smarts"⟩,
  ⟨"", "?:", 4096, "Unknown, please let us know the ID"⟩]

/-- The part of `DModelSource` the normalizer reads (`source.id`; the whole
record is also stored by back-reference). -/
structure DModelSource where
  id : String
deriving DecidableEq, Repr

/-- The raw remote descriptor `OpenAI.Wire.Models.ModelDescription`:
the fields the normalizer reads (`id`, `created`). -/
structure ModelDescription where
  id : String
  created : ℤ
deriving DecidableEq, Repr

/-- The `options` part of the produced record (`LLMOptionsOpenAI`). -/
structure LLMOptionsOpenAI where
  llmRef : String
  llmTemperature : ℚ
  llmResponseTokens : ℤ
deriving DecidableEq, Repr

/-- The normalized model record (`DLLM & { options: LLMOptionsOpenAI }`).
The `_source` back-reference field is embedded as `sourceRef`. -/
structure DLLM where
  id : String
  label : String
  created : ℤ
  description : String
  tags : List String
  contextTokens : ℕ
  hidden : Bool
  sId : String
  sourceRef : DModelSource
  options : LLMOptionsOpenAI
deriving DecidableEq, Repr

/-- Line 164 of the source:
`knownBases.find(base => model.id.startsWith(base.id)) || knownBases[knownBases.length - 1]`.
`Array.prototype.find` returns the first element satisfying the predicate
(or `undefined`, in which case `||` falls back to the last entry). -/
def matchedBase (rawId : String) : KnownBase :=
  (knownBases.find? (fun base => jsStartsWith rawId base.id)).getD
    (knownBases.getLast (by decide))

/-- Lines 163-181 of the source: `openAIModelToDLLM(model, source)`. -/
def openAIModelToDLLM (model : ModelDescription) (source : DModelSource) : DLLM :=
  let base := matchedBase model.id
  let suffix := jsTrim (jsSlice model.id (jsLength base.id))
  { id := source.id ++ "-" ++ model.id
    label := base.label ++
      (if suffix = "" then "" else " (" ++ jsTrim (jsReplaceHyphens suffix) ++ ")")
    created := model.created
    description := base.description
    tags := ["stream", "chat"]
    contextTokens := base.context
    hidden := suffix != ""
    sId := source.id
    sourceRef := source
    options :=
      { llmRef := model.id
        llmTemperature := 0.5
        llmResponseTokens := jsRound ((base.context : ℚ) / 8) } }

/-! ### Helper lemmas -/

theorem isPrefixOf_nil {α : Type} [BEq α] (l : List α) :
    List.isPrefixOf ([] : List α) l = true := by
  cases l <;> rfl

theorem isPrefixOf_append {α : Type} [BEq α] [LawfulBEq α] (l t : List α) :
    List.isPrefixOf l (l ++ t) = true := by
  induction l with
  | nil => exact isPrefixOf_nil t
  | cons a l ih => simp [List.isPrefixOf, ih]

/-- The empty string is a prefix of every string. -/
theorem jsStartsWith_empty (s : String) : jsStartsWith s "" = true := by
  have h : ("" : String).data = [] := rfl
  rw [jsStartsWith, h, isPrefixOf_nil]

theorem strData_append (a b : String) : (a ++ b).data = a.data ++ b.data := rfl

theorem jsStartsWith_of_append (p r : String) : jsStartsWith (p ++ r) p = true := by
  rw [jsStartsWith, strData_append, isPrefixOf_append]

theorem strAppend_empty (s : String) : s ++ "" = s := by
  show String.mk (s.data ++ []) = s
  rw [List.append_nil]

theorem jsLength_append (a b : String) : jsLength (a ++ b) = jsLength a + jsLength b := by
  rw [jsLength, jsLength, jsLength, strData_append, List.length_append]

/-- `List.find?` returns the first element satisfying the predicate. -/
theorem find?_first {α : Type} (p : α → Bool) (l : List α) (x : α)
    (h : l.find? p = some x) :
    ∃ i, ∃ hi : i < l.length, l.get ⟨i, hi⟩ = x ∧ p x = true ∧
      ∀ j (hj : j < l.length), j < i → p (l.get ⟨j, hj⟩) = false := by
  induction l with
  | nil => simp [List.find?] at h
  | cons a t ih =>
    cases ha : p a with
    | false =>
      rw [List.find?_cons, ha] at h
      simp only [cond_false] at h
      obtain ⟨i, hi, hget, hpx, hfirst⟩ := ih h
      refine ⟨i + 1, Nat.succ_lt_succ hi, hget, hpx, ?_⟩
      intro j hj hlt
      cases j with
      | zero => exact ha
      | succ j => exact hfirst j (Nat.lt_of_succ_lt_succ hj) (Nat.lt_of_succ_lt_succ hlt)
    | true =>
      rw [List.find?_cons, ha] at h
      simp only [cond_true, Option.some.injEq] at h
      subst h
      exact ⟨0, Nat.succ_pos _, rfl, ha, fun j hj hlt => absurd hlt (Nat.not_lt_zero j)⟩

/-- The table scan itself always succeeds: the last entry's empty id
matches every raw identifier. -/
theorem knownBases_find?_isSome (s : String) :
    (knownBases.find? (fun base => jsStartsWith s base.id)).isSome = true := by
  rw [List.find?_isSome]
  exact ⟨⟨"", "?:", 4096, "Unknown, please let us know the ID"⟩,
    by simp [knownBases], jsStartsWith_empty s⟩

/-- The label, spelled out: base label, plus the parenthesized transformed
suffix when the suffix is non-empty. -/
theorem label_eq (model : ModelDescription) (source : DModelSource) :
    (openAIModelToDLLM model source).label =
      (matchedBase model.id).label ++
        (if jsTrim (jsSlice model.id (jsLength (matchedBase model.id).id)) = "" then ""
         else " (" ++ jsTrim (jsReplaceHyphens
                (jsTrim (jsSlice model.id (jsLength (matchedBase model.id).id)))) ++ ")") :=
  rfl

/-- The hidden flag, spelled out. -/
theorem hidden_eq (model : ModelDescription) (source : DModelSource) :
    (openAIModelToDLLM model source).hidden =
      (jsTrim (jsSlice model.id (jsLength (matchedBase model.id).id)) != "") :=
  rfl

/-! ### Claims -/

/-- C1: the normalizer is total — for every raw model identifier (any string),
every creation timestamp and every source reference, `openAIModelToDLLM`
returns exactly one complete record and never fails. -/
theorem c1_normalizer_total (model : ModelDescription) (source : DModelSource) :
    ∃! record : DLLM, openAIModelToDLLM model source = record :=
  ⟨openAIModelToDLLM model source, rfl, fun _ h => h.symm⟩

/-- C2: the matched base is chosen by an in-order scan of `knownBases`,
first-match-wins: the selected entry is the first one (in table order) whose
id is a literal prefix of the raw identifier; and for "gpt-3.5-turbo-0301"
the record's context window is 4097 (the "gpt-3.5-turbo" entry), not the
fallback's 4096. -/
theorem c2_first_match_wins :
    (∀ s : String, ∃ i, ∃ hi : i < knownBases.length,
        matchedBase s = knownBases.get ⟨i, hi⟩ ∧
        jsStartsWith s (knownBases.get ⟨i, hi⟩).id = true ∧
        ∀ j (hj : j < knownBases.length), j < i →
          jsStartsWith s (knownBases.get ⟨j, hj⟩).id = false) ∧
    (∀ (created : ℤ) (source : DModelSource),
        (openAIModelToDLLM ⟨"gpt-3.5-turbo-0301", created⟩ source).contextTokens = 4097) := by
  constructor
  · intro s
    obtain ⟨b, hb⟩ := Option.isSome_iff_exists.mp (knownBases_find?_isSome s)
    obtain ⟨i, hi, hget, hpx, hfirst⟩ := find?_first _ _ _ hb
    refine ⟨i, hi, ?_, ?_, hfirst⟩
    · simp only [matchedBase]
      rw [hb, Option.getD_some]
      exact hget.symm
    · rw [hget]
      exact hpx
  · intro created source
    rfl

/-- C3: the hidden flag is true iff the trimmed remainder of the raw
identifier after the matched prefix is non-empty; an identifier exactly
equal to a table prefix ("gpt-4-32k") yields an empty suffix and
`hidden = false`. -/
theorem c3_hidden_iff_suffix_nonempty :
    (∀ (model : ModelDescription) (source : DModelSource),
        ((openAIModelToDLLM model source).hidden = true ↔
          jsTrim (jsSlice model.id (jsLength (matchedBase model.id).id)) ≠ "")) ∧
    jsTrim (jsSlice "gpt-4-32k" (jsLength (matchedBase "gpt-4-32k").id)) = "" ∧
    (∀ (created : ℤ) (source : DModelSource),
        (openAIModelToDLLM ⟨"gpt-4-32k", created⟩ source).hidden = false) := by
  refine ⟨?_, by decide, ?_⟩
  · intro model source
    rw [hidden_eq]
    exact bne_iff_ne
  · intro created source
    rfl

/-- C4: the label equals the matched base's label when the suffix is empty,
and otherwise the base label followed by a space and the suffix in
parentheses with every hyphen replaced by a space and trimmed; in
particular "gpt-4-0314" yields label "GPT-4 (0314)". -/
theorem c4_label_formula :
    (∀ (model : ModelDescription) (source : DModelSource),
        (openAIModelToDLLM model source).label =
          (if jsTrim (jsSlice model.id (jsLength (matchedBase model.id).id)) = ""
           then (matchedBase model.id).label
           else (matchedBase model.id).label ++
             (" (" ++ jsTrim (jsReplaceHyphens
               (jsTrim (jsSlice model.id (jsLength (matchedBase model.id).id)))) ++ ")"))) ∧
    (∀ (created : ℤ) (source : DModelSource),
        (openAIModelToDLLM ⟨"gpt-4-0314", created⟩ source).label = "GPT-4 (0314)" ∧
        (openAIModelToDLLM ⟨"gpt-4-0314", created⟩ source).hidden = true) := by
  constructor
  · intro model source
    rw [label_eq]
    by_cases h : jsTrim (jsSlice model.id (jsLength (matchedBase model.id).id)) = ""
    · rw [if_pos h, if_pos h, strAppend_empty]
    · rw [if_neg h, if_neg h]
  · intro created source
    exact ⟨rfl, rfl⟩

/-- C5: `options.llmResponseTokens` equals the matched base's context
window divided by 8 and rounded (Math.round), and on the compiled-in table
this yields 32768 -> 4096, 8192 -> 1024, 4097 -> 512, 4096 -> 512. -/
theorem c5_llmResponseTokens_round :
    (∀ (model : ModelDescription) (source : DModelSource),
        (openAIModelToDLLM model source).options.llmResponseTokens =
          jsRound (((matchedBase model.id).context : ℚ) / 8)) ∧
    knownBases.map (fun base => jsRound ((base.context : ℚ) / 8)) =
      [4096, 1024, 512, 512] := by
  constructor
  · intro model source
    rfl
  · simp only [knownBases, List.map_cons, List.map_nil, List.cons.injEq, and_true]
    refine ⟨?_, ?_, ?_, ?_⟩ <;> (rw [jsRound, Int.floor_eq_iff]; norm_num)

/-- C6: the composite id is byte-for-byte the source id, then "-", then the
raw model identifier, with no other transformation. -/
theorem c6_compositeId_concat (model : ModelDescription) (source : DModelSource) :
    (openAIModelToDLLM model source).id = source.id ++ "-" ++ model.id :=
  rfl

/-- C8: the tag list is exactly ["stream", "chat"], independent of the raw
descriptor's contents. -/
theorem c8_tags_fixed (model : ModelDescription) (source : DModelSource) :
    (openAIModelToDLLM model source).tags = ["stream", "chat"] :=
  rfl

/-- C9: the explicit fallback alternative after the table scan is
unreachable — the scan itself always returns an entry (the last entry's
empty prefix matches every string), and the record's base is that entry. -/
theorem c9_fallback_branch_unreachable (s : String) :
    ∃ b : KnownBase,
      knownBases.find? (fun base => jsStartsWith s base.id) = some b ∧
      matchedBase s = b := by
  obtain ⟨b, hb⟩ := Option.isSome_iff_exists.mp (knownBases_find?_isSome s)
  refine ⟨b, hb, ?_⟩
  simp only [matchedBase]
  rw [hb, Option.getD_some]

/-- C7 counterexample: the raw identifier "" is matched only by the
universal fallback entry (no non-empty prefix of the table matches it),
yet its record has `hidden = false`, because the trimmed suffix — the
whole identifier — is empty. The claim's `hidden == true` is therefore not
universal over fallback-only identifiers. -/
theorem c7_hidden_counterexample :
    (∀ base ∈ knownBases, base.id ≠ "" → jsStartsWith "" base.id = false) ∧
    (openAIModelToDLLM ⟨"", 0⟩ ⟨"oai"⟩).hidden = false :=
  ⟨by decide, by decide⟩

/-- C7 (amended): for every raw identifier matched only by the universal
fallback entry, the record uses the fallback's label, description and
context window verbatim, the whole (trimmed) raw identifier becomes the
suffix, and `hidden` is true iff the trimmed identifier is non-empty. -/
theorem c7_fallback_only_record (model : ModelDescription) (source : DModelSource)
    (hfb : ∀ base ∈ knownBases, base.id ≠ "" → jsStartsWith model.id base.id = false) :
    matchedBase model.id = ⟨"", "?:", 4096, "Unknown, please let us know the ID"⟩ ∧
    (openAIModelToDLLM model source).description = "Unknown, please let us know the ID" ∧
    (openAIModelToDLLM model source).contextTokens = 4096 ∧
    jsSlice model.id (jsLength (matchedBase model.id).id) = model.id ∧
    jsStartsWith (openAIModelToDLLM model source).label "?:" = true ∧
    ((openAIModelToDLLM model source).hidden = true ↔ jsTrim model.id ≠ "") := by
  have h1 : jsStartsWith model.id "gpt-4-32k" = false :=
    hfb ⟨"gpt-4-32k", "GPT-4-32", 32768, "Largest context window for big thinking"⟩
      (by simp [knownBases]) (by decide)
  have h2 : jsStartsWith model.id "gpt-4" = false :=
    hfb ⟨"gpt-4", "GPT-4", 8192, "Insightful, big thinker, slower, pricey"⟩
      (by simp [knownBases]) (by decide)
  have h3 : jsStartsWith model.id "gpt-3.5-turbo" = false :=
    hfb ⟨"gpt-3.5-turbo", "3.5-Turbo", 4097, "Fair speed and smarts"⟩
      (by simp [knownBases]) (by decide)
  have hm : matchedBase model.id = ⟨"", "?:", 4096, "Unknown, please let us know the ID"⟩ := by
    simp only [matchedBase, knownBases, List.find?_cons, h1, h2, h3,
      jsStartsWith_empty, cond_false, cond_true, Option.getD_some]
  refine ⟨hm, ?_, ?_, ?_, ?_, ?_⟩
  · show (matchedBase model.id).description = _
    rw [hm]
  · show (matchedBase model.id).context = _
    rw [hm]
  · rw [hm]
    rfl
  · rw [label_eq, hm]
    exact jsStartsWith_of_append "?:" _
  · rw [hidden_eq, hm]
    exact bne_iff_ne

/-- C7 witness: "text-davinci-003" is matched only by the fallback;
its record carries the fallback description and is hidden. -/
theorem c7_fallback_only_record_witness :
    (openAIModelToDLLM ⟨"text-davinci-003", 123⟩ ⟨"oai"⟩).description =
        "Unknown, please let us know the ID" ∧
    (openAIModelToDLLM ⟨"text-davinci-003", 123⟩ ⟨"oai"⟩).hidden = true := by
  have h := c7_fallback_only_record ⟨"text-davinci-003", 123⟩ ⟨"oai"⟩ (by decide)
  exact ⟨h.2.1, h.2.2.2.2.2.mpr (by decide)⟩

/-- C10: every record satisfies the invariant linking label and hidden:
`hidden = false` iff the label is exactly the matched base's label; and
when `hidden = true` the label strictly extends the base label with the
parenthesized rendering of the (non-empty) suffix. -/
theorem c10_hidden_label_invariant (model : ModelDescription) (source : DModelSource) :
    ((openAIModelToDLLM model source).hidden = false ↔
      (openAIModelToDLLM model source).label = (matchedBase model.id).label) ∧
    ((openAIModelToDLLM model source).hidden = true →
      jsTrim (jsSlice model.id (jsLength (matchedBase model.id).id)) ≠ "" ∧
      (openAIModelToDLLM model source).label =
        (matchedBase model.id).label ++
          (" (" ++ jsTrim (jsReplaceHyphens
            (jsTrim (jsSlice model.id (jsLength (matchedBase model.id).id)))) ++ ")") ∧
      (openAIModelToDLLM model source).label ≠ (matchedBase model.id).label) := by
  by_cases hsuf : jsTrim (jsSlice model.id (jsLength (matchedBase model.id).id)) = ""
  · have hhid : (openAIModelToDLLM model source).hidden = false := by
      rw [hidden_eq, hsuf]
      rfl
    have hlab : (openAIModelToDLLM model source).label = (matchedBase model.id).label := by
      rw [label_eq, if_pos hsuf, strAppend_empty]
    refine ⟨⟨fun _ => hlab, fun _ => hhid⟩, fun h => ?_⟩
    rw [hhid] at h
    exact Bool.noConfusion h
  · have hhid : (openAIModelToDLLM model source).hidden = true := by
      rw [hidden_eq]
      exact bne_iff_ne.mpr hsuf
    have hlab : (openAIModelToDLLM model source).label =
        (matchedBase model.id).label ++
          (" (" ++ jsTrim (jsReplaceHyphens
            (jsTrim (jsSlice model.id (jsLength (matchedBase model.id).id)))) ++ ")") := by
      rw [label_eq, if_neg hsuf]
    have hne : (openAIModelToDLLM model source).label ≠ (matchedBase model.id).label := by
      intro h
      have h2 := congrArg jsLength (hlab.symm.trans h)
      rw [jsLength_append, jsLength_append, jsLength_append] at h2
      have h3 : jsLength " (" = 2 := rfl
      have h4 : jsLength ")" = 1 := rfl
      omega
    refine ⟨⟨fun h => ?_, fun h => absurd h hne⟩, fun _ => ⟨hsuf, hlab, hne⟩⟩
    rw [hhid] at h
    exact Bool.noConfusion h
